import Mathlib

/-!
Shallow embedding of `cmd/server/connectlambda.go`: a bridge between the AWS
Lambda proxy-invocation envelope format and an in-process HTTP handler.

Go strings are immutable byte sequences; we model them as `List Nat` (each
element a byte value).  The Go stdlib functions the file calls
(`base64.StdEncoding`, `textproto` header canonicalisation, `http.Header`
`Add`/`Set`/`Get`, `http.NewRequestWithContext` validity checks,
`strings.ToLower`/`TrimSpace` on ASCII input) are modelled here byte-for-byte
on the inputs this program feeds them.
-/

/-- A Go string / byte slice: a sequence of byte values. -/
abbrev GoStr := List Nat

/-- Byte list of an ASCII string literal (each `Char` is its code point;
all literals used in this development are ASCII, where the code point is
the byte). -/
def gostr (s : String) : GoStr := s.data.map Char.toNat

/-! ### base64 (Go `encoding/base64` `StdEncoding`) -/

/-- Standard base64 alphabet: 6-bit value to ASCII byte. -/
def b64echar (n : Nat) : Nat :=
  if n < 26 then 65 + n
  else if n < 52 then 97 + (n - 26)
  else if n < 62 then 48 + (n - 52)
  else if n = 62 then 43
  else 47

/-- `base64.StdEncoding.EncodeToString`: 3 input bytes become 4 alphabet
bytes; a 1- or 2-byte tail is padded with `=` (byte 61). -/
def b64encode : GoStr → GoStr
  | [] => []
  | [a] => [b64echar (a / 4), b64echar (a % 4 * 16), 61, 61]
  | [a, b] => [b64echar (a / 4), b64echar (a % 4 * 16 + b / 16), b64echar (b % 16 * 4), 61]
  | a :: b :: c :: rest =>
    b64echar (a / 4) :: b64echar (a % 4 * 16 + b / 16) ::
    b64echar (b % 16 * 4 + c / 64) :: b64echar (c % 64) :: b64encode rest

/-- Inverse alphabet: ASCII byte to 6-bit value, `none` for a byte outside
the standard alphabet. -/
def b64dchar (b : Nat) : Option Nat :=
  if 65 ≤ b ∧ b ≤ 90 then some (b - 65)
  else if 97 ≤ b ∧ b ≤ 122 then some (b - 97 + 26)
  else if 48 ≤ b ∧ b ≤ 57 then some (b - 48 + 52)
  else if b = 43 then some 62
  else if b = 47 then some 63
  else none

/-- Go's base64 decoder skips CR and LF bytes wherever they occur. -/
def stripNewlines (s : GoStr) : GoStr := s.filter (fun b => decide (b ≠ 10 ∧ b ≠ 13))

/-- Decode 4-byte quanta.  Padding (`=`, byte 61) may only close the final
quantum (`xx==` yields one byte, `xxx=` yields two); any other shape — a
byte outside the alphabet, a quantum shorter than 4, data after padding —
is a `CorruptInputError`, modelled as `none`.  Like Go's non-strict
`StdEncoding`, trailing bits beyond the decoded bytes are ignored. -/
def b64decodeQuanta : List Nat → Option (List Nat)
  | [] => some []
  | a :: b :: c :: d :: rest =>
    match b64dchar a, b64dchar b with
    | some va, some vb =>
      if c = 61 then
        if d = 61 ∧ rest = [] then some [va * 4 + vb / 16] else none
      else
        match b64dchar c with
        | some vc =>
          if d = 61 then
            if rest = [] then some [va * 4 + vb / 16, vb % 16 * 16 + vc / 4] else none
          else
            match b64dchar d with
            | some vd =>
              (b64decodeQuanta rest).map
                (fun tl => (va * 4 + vb / 16) :: (vb % 16 * 16 + vc / 4) :: (vc % 4 * 64 + vd) :: tl)
            | none => none
        | none => none
    | _, _ => none
  | _ => none

/-- `base64.StdEncoding.DecodeString`: `none` models the error return. -/
def b64decode (s : GoStr) : Option GoStr := b64decodeQuanta (stripNewlines s)

/-! ### HTTP header model (`net/http.Header` over `net/textproto`) -/

/-- RFC 7230 token bytes, as in Go's `httpguts.IsTokenRune` table and
`textproto.validHeaderFieldByte`: digits, letters, and
`! # $ % & ' * + - . ^ _ \x60 | ~`. -/
def isTokenChar (b : Nat) : Bool :=
  decide ((48 ≤ b ∧ b ≤ 57) ∨ (65 ≤ b ∧ b ≤ 90) ∨ (97 ≤ b ∧ b ≤ 122) ∨
    b = 33 ∨ b = 35 ∨ b = 36 ∨ b = 37 ∨ b = 38 ∨ b = 39 ∨ b = 42 ∨ b = 43 ∨
    b = 45 ∨ b = 46 ∨ b = 94 ∨ b = 95 ∨ b = 96 ∨ b = 124 ∨ b = 126)

/-- Case-folding pass of `textproto.CanonicalMIMEHeaderKey`: uppercase the
first byte and every byte following a `-` (byte 45), lowercase the rest. -/
def canonChars : List Nat → Bool → List Nat
  | [], _ => []
  | c :: rest, upper =>
    let c' := if upper ∧ 97 ≤ c ∧ c ≤ 122 then c - 32
      else if ¬ upper ∧ 65 ≤ c ∧ c ≤ 90 then c + 32
      else c
    c' :: canonChars rest (c' = 45)

/-- `textproto.CanonicalMIMEHeaderKey`: keys containing a byte that is not a
valid header-field byte are returned unmodified. -/
def canonicalMIMEHeaderKey (s : GoStr) : GoStr :=
  if s.all isTokenChar then canonChars s true else s

/-- `net/http.Header`: a map from canonical keys to value lists, modelled as
an association list (Go map iteration order is arbitrary; every theorem
below is proved for every order, see the header-merge lemmas). -/
abbrev GoHeader := List (GoStr × List GoStr)

/-- Map lookup `h[k]` (`none` when `k` is absent). -/
def lookupAssoc : GoHeader → GoStr → Option (List GoStr)
  | [], _ => none
  | (k', vs) :: rest, k => if k' = k then some vs else lookupAssoc rest k

/-- `h[k] = append(h[k], v)`: append `v` to the entry for `k`, creating the
entry if absent. -/
def addAssoc : GoHeader → GoStr → GoStr → GoHeader
  | [], k, v => [(k, [v])]
  | (k', vs) :: rest, k, v =>
    if k' = k then (k', vs ++ [v]) :: rest else (k', vs) :: addAssoc rest k v

/-- `h[k] = [v]`: replace the entry for `k`, creating it if absent. -/
def setAssoc : GoHeader → GoStr → GoStr → GoHeader
  | [], k, v => [(k, [v])]
  | (k', vs) :: rest, k, v =>
    if k' = k then (k', [v]) :: rest else (k', vs) :: setAssoc rest k v

/-- `http.Header.Add` (via `textproto.MIMEHeader.Add`): canonicalise the key,
then append the value to the key's list. -/
def headerAdd (h : GoHeader) (key value : GoStr) : GoHeader :=
  addAssoc h (canonicalMIMEHeaderKey key) value

/-- `http.Header.Set`: canonicalise the key, then replace the key's list. -/
def headerSet (h : GoHeader) (key value : GoStr) : GoHeader :=
  setAssoc h (canonicalMIMEHeaderKey key) value

/-- `http.Header.Get`: first value under the canonical key, `""` if none. -/
def headerGet (h : GoHeader) (key : GoStr) : GoStr :=
  match lookupAssoc h (canonicalMIMEHeaderKey key) with
  | some (v :: _) => v
  | _ => []

/-- All values under the canonical key (`http.Header.Values`). -/
def headerValues (h : GoHeader) (key : GoStr) : List GoStr :=
  (lookupAssoc h (canonicalMIMEHeaderKey key)).getD []

/-! ### Envelope data types (`ProxyRequest`, `ProxyResponse`) -/

/-- The inbound Lambda proxy envelope.  The `pathParameters`,
`stageVariables` and `requestContext` fields of the Go struct have opaque
(`any` / map) types and are never read by `handleLambdaReq`; they are
omitted from the model. -/
structure ProxyRequest where
  Resource : GoStr := []
  Path : GoStr := []
  HttpMethod : GoStr := []
  Headers : List (GoStr × GoStr) := []
  MultiValueHeaders : List (GoStr × List GoStr) := []
  QueryStringParameters : List (GoStr × GoStr) := []
  MultiValueQueryStringParameters : List (GoStr × List GoStr) := []
  Body : GoStr := []
  Base64 : Bool := false
  deriving Repr, DecidableEq

/-- The outbound Lambda proxy envelope.  Field defaults are the Go zero
values, as in the composite literal in `errorResponse`. -/
structure ProxyResponse where
  Base64 : Bool := false
  Status : Int := 0
  Header : GoHeader := []
  Body : GoStr := []
  deriving Repr, DecidableEq

/-! ### Synthetic HTTP request (`http.NewRequestWithContext`) -/

/-- The parts of `http.Request` this program constructs and reads: method,
target URL string, header set, and body bytes (the `bytes.NewReader(bs)`
contents). -/
structure Request where
  Method : GoStr := []
  URL : GoStr := []
  Header : GoHeader := []
  Body : GoStr := []
  deriving Repr, DecidableEq

/-- `net/http`'s `validMethod`: non-empty and every byte a token byte. -/
def validMethod (method : GoStr) : Bool :=
  decide (method ≠ []) && method.all isTokenChar

/-- Models `net/url.Parse` failure: Go rejects URLs containing an ASCII
control byte (below 0x20, or 0x7f) outright, and a URL starting with `:`
fails with "missing protocol scheme".  Further stdlib failure modes
(malformed percent-escapes, bad host syntax) are not modelled; this model
only narrows which inputs take the error branch, not what the program does
on either branch. -/
def urlParseOk (rawURL : GoStr) : Bool :=
  rawURL.all (fun b => decide (32 ≤ b ∧ b ≠ 127)) &&
  decide (rawURL.head? ≠ some 58)

/-- `http.NewRequestWithContext(ctx, method, url, body)`: an empty method
defaults to `"GET"`; an invalid method or an unparsable URL is an error
(modelled with the error text). -/
def newRequest (method url body : GoStr) : Except GoStr Request :=
  let method := if method = [] then gostr "GET" else method
  if ¬ validMethod method then .error (gostr "net/http: invalid method")
  else if ¬ urlParseOk url then .error (gostr "net/url: invalid URL")
  else .ok { Method := method, URL := url, Header := [], Body := body }

/-! ### Response capture buffer (`ResponseBuffer`) -/

/-- `ResponseBuffer`: field defaults are the Go zero values of
`&ResponseBuffer{}`.  A `nil` header map and an empty one are
indistinguishable through `Get`/`Add`/`Set`, so both are `[]` here. -/
structure ResponseBuffer where
  statusCode : Int := 0
  header : GoHeader := []
  buf : GoStr := []
  wroteHeader : Bool := false
  deriving Repr, DecidableEq

/-- The fresh buffer `&ResponseBuffer{}` handed to the handler. -/
def rbInit : ResponseBuffer := {}

/-- `(*ResponseBuffer).WriteHeader`: ignored once `wroteHeader` is set. -/
def ResponseBuffer.writeHeader (o : ResponseBuffer) (statusCode : Int) : ResponseBuffer :=
  if o.wroteHeader then o
  else { o with statusCode := statusCode, wroteHeader := true }

/-- `(*ResponseBuffer).Write`: commits status 200 if nothing is committed
yet (with the `statusCode == 0` double-check of the source), then appends
to the buffer.  An in-memory `bytes.Buffer` write cannot fail. -/
def ResponseBuffer.write (o : ResponseBuffer) (bytes : GoStr) : ResponseBuffer :=
  let o := if ¬ o.wroteHeader then o.writeHeader 200 else o
  let o := if o.statusCode = 0 then { o with statusCode := 200 } else o
  { o with buf := o.buf ++ bytes }

/-- `(*ResponseBuffer).ToLambdaProxyResponse`: base64-encode the body
unless the committed Content-Type is exactly `application/json`. -/
def ResponseBuffer.toLambdaProxyResponse (o : ResponseBuffer) : ProxyResponse :=
  let useBase64 := ¬ (headerGet o.header (gostr "Content-Type") = gostr "application/json")
  { Base64 := useBase64,
    Status := o.statusCode,
    Header := o.header,
    Body := if useBase64 then b64encode o.buf else o.buf }

/-- One step of the handler capability surface (`http.ResponseWriter`): the
handler may mutate the header map (`Header().Add` / `Header().Set`), commit
a status (`WriteHeader`) or append body bytes (`Write`). -/
inductive RBAction where
  | headerAdd (key value : GoStr)
  | headerSet (key value : GoStr)
  | writeHeader (code : Int)
  | write (bytes : GoStr)
  deriving Repr, DecidableEq

/-- Apply one handler action to the buffer. -/
def applyAction (o : ResponseBuffer) : RBAction → ResponseBuffer
  | .headerAdd k v => { o with header := headerAdd o.header k v }
  | .headerSet k v => { o with header := headerSet o.header k v }
  | .writeHeader c => o.writeHeader c
  | .write bs => o.write bs

/-- `h.mux.ServeHTTP(buf, req)`: the wrapped handler, modelled as the
sequence of response-writer actions it performs, run against the buffer. -/
def runActions (acts : List RBAction) (o : ResponseBuffer) : ResponseBuffer :=
  acts.foldl applyAction o

/-- A wrapped handler: given the materialized request, the actions it
performs on the response writer. -/
abbrev Mux := Request → List RBAction

/-! ### The Lambda handler (`handleLambdaReq`, `errorResponse`) -/

/-- `errorResponse`: the `Base64` field is left at its zero value. -/
def errorResponse (status : Int) (msg : GoStr) : ProxyResponse :=
  { Status := status,
    Header := [(gostr "Content-Type", [gostr "text/plain"])],
    Body := msg }

/-- Why materialization failed: the two error branches of the front half of
`handleLambdaReq`. -/
inductive MatErr where
  | badBase64
  | badRequest (e : GoStr)
  deriving Repr, DecidableEq

/-- Body decode step of `handleLambdaReq`: literal bytes unless the
envelope's base64 flag is set, in which case the body text is decoded. -/
def decodeBody (preq : ProxyRequest) : Option GoStr :=
  if preq.Base64 then b64decode preq.Body else some preq.Body

/-- The two header-copy loops of `handleLambdaReq`: `req.Header.Add` every
entry of the single-value map, then every value of every entry of the
multi-value map, onto the header set `h`. -/
def copyHeaders (preq : ProxyRequest) (h : GoHeader) : GoHeader :=
  preq.MultiValueHeaders.foldl (fun h ks => ks.2.foldl (fun h v => headerAdd h ks.1 v) h)
    (preq.Headers.foldl (fun h kv => headerAdd h kv.1 kv.2) h)

/-- Request materializer: the front half of `handleLambdaReq` — decode the
body, build the request from the envelope's method and path
(`url := preq.Path`), then copy both header maps onto it with
`req.Header.Add` (single-value map first, then every value of the
multi-value map). -/
def materializeRequest (preq : ProxyRequest) : Except MatErr Request :=
  match decodeBody preq with
  | none => .error .badBase64
  | some bs =>
    match newRequest preq.HttpMethod preq.Path bs with
    | .error e => .error (.badRequest e)
    | .ok req => .ok { req with Header := copyHeaders preq req.Header }

/-- `(*handler).handleLambdaReq`.  Returns the `(ProxyResponse, error)`
pair of the Go function together with the messages passed to the injected
`h.log` callback, in order.  Every Go return statement returns a nil
error, modelled as `none`. -/
def handleLambdaReq (mux : Mux) (preq : ProxyRequest) :
    ProxyResponse × Option GoStr × List GoStr :=
  match materializeRequest preq with
  | .error .badBase64 =>
    (errorResponse 400 (gostr "could not decode body"), none,
     [gostr "could not decode body as base64"])
  | .error (.badRequest e) =>
    (errorResponse 400 (gostr "could not create request, check url and http method"), none,
     [gostr "could not create request : " ++ e])
  | .ok req =>
    let buf := runActions (mux req) rbInit
    if ¬ buf.wroteHeader then
      (errorResponse 500 (gostr "internal server error"), none,
       [gostr "HTTP handler returned without writing a header or body"])
    else
      (buf.toLambdaProxyResponse, none, [])

/-! ### Startup configuration (`ConfigFromEnv`) -/

inductive Mode where
  | HttpMode
  | LambdaMode
  deriving Repr, DecidableEq

structure Config where
  Mode : Mode := .HttpMode
  HttpAddr : GoStr := []
  deriving Repr, DecidableEq

/-- `strings.ToLower` on ASCII bytes (uppercase letters shifted down). -/
def toLower (s : GoStr) : GoStr :=
  s.map (fun b => if 65 ≤ b ∧ b ≤ 90 then b + 32 else b)

/-- An ASCII space-class byte (`\t \n \v \f \r` and space), as trimmed by
`strings.TrimSpace`. -/
def isSpaceByte (b : Nat) : Bool := decide (b = 32 ∨ (9 ≤ b ∧ b ≤ 13))

/-- `strings.TrimSpace` on ASCII bytes. -/
def trimSpace (s : GoStr) : GoStr :=
  (s.dropWhile isSpaceByte).reverse.dropWhile isSpaceByte |>.reverse

/-- `ConfigFromEnv`.  `modeEnv` is `os.Getenv("CONNECT_SERVER_MODE")`
(which yields `""` when the variable is unset); `addrEnv` is
`os.LookupEnv("CONNECT_SERVER_ADDR")` (`none` when unset). -/
def configFromEnv (modeEnv : GoStr) (addrEnv : Option GoStr) : Except GoStr Config :=
  let mode := toLower (trimSpace modeEnv)
  if mode = gostr "lambda" then
    .ok { Mode := .LambdaMode }
  else if mode = [] ∨ mode = gostr "http" then
    match addrEnv with
    | none => .error (gostr "missing CONNECT_SERVER_ADDR environment value")
    | some addr => .ok { Mode := .HttpMode, HttpAddr := trimSpace addr }
  else
    .error (gostr "incorrect CONNECT_SERVER_MODE environment value")

/-! ## Helper lemmas -/

instance {ε α : Type} [DecidableEq ε] [DecidableEq α] : DecidableEq (Except ε α) := fun x y =>
  match x, y with
  | .error a, .error b =>
    if h : a = b then isTrue (by rw [h])
    else isFalse (fun hh => h (by injection hh))
  | .ok a, .ok b =>
    if h : a = b then isTrue (by rw [h])
    else isFalse (fun hh => h (by injection hh))
  | .error _, .ok _ => isFalse (fun hh => Except.noConfusion hh)
  | .ok _, .error _ => isFalse (fun hh => Except.noConfusion hh)

/-- A successfully constructed request carries the given body bytes and an
empty header set. -/
theorem newRequest_ok_inv {m u b : GoStr} {r : Request}
    (h : newRequest m u b = .ok r) : r.Body = b ∧ r.Header = [] := by
  unfold newRequest at h
  by_cases hv : validMethod (if m = [] then gostr "GET" else m) <;>
    by_cases hu : urlParseOk u <;>
    simp [hv, hu] at h
  subst h
  exact ⟨rfl, rfl⟩

/-- A successfully materialized request's body is the decoded envelope body
and its header set is the merge of the envelope's two header maps. -/
theorem materializeRequest_inv {preq : ProxyRequest} {req : Request}
    (h : materializeRequest preq = .ok req) :
    decodeBody preq = some req.Body ∧ req.Header = copyHeaders preq [] := by
  unfold materializeRequest at h
  cases hd : decodeBody preq with
  | none => simp only [hd] at h; exact Except.noConfusion h
  | some bs =>
    simp only [hd] at h
    cases hn : newRequest preq.HttpMethod preq.Path bs with
    | error e => simp only [hn] at h; exact Except.noConfusion h
    | ok r0 =>
      simp only [hn] at h
      obtain ⟨hb, hh⟩ := newRequest_ok_inv hn
      injection h with h
      subst h
      exact ⟨by simp [hd, hb], by simp [hh]⟩

/-! ## Claim theorems -/

/-- Claim C10: for every status code and message text, `errorResponse`
produces an envelope whose base64 flag is false, whose status equals the
given code, whose header map contains exactly the single entry
`Content-Type: text/plain`, and whose body is the literal message text. -/
theorem errorResponse_shape (status : Int) (msg : GoStr) :
    (errorResponse status msg).Base64 = false ∧
    (errorResponse status msg).Status = status ∧
    (errorResponse status msg).Header = [(gostr "Content-Type", [gostr "text/plain"])] ∧
    (errorResponse status msg).Body = msg :=
  ⟨rfl, rfl, rfl, rfl⟩

/-- Claim C2: for every finalized capture buffer, `ToLambdaProxyResponse`
returns an envelope with base64 flag false and the literal accumulated
bytes as body exactly when the committed Content-Type header is
`application/json`, and base64 flag true with the base64 encoding of the
accumulated bytes for every other Content-Type value (including absent,
where `Get` yields the empty string). -/
theorem toLambdaProxyResponse_encoding (o : ResponseBuffer) :
    (headerGet o.header (gostr "Content-Type") = gostr "application/json" →
      o.toLambdaProxyResponse.Base64 = false ∧ o.toLambdaProxyResponse.Body = o.buf) ∧
    (headerGet o.header (gostr "Content-Type") ≠ gostr "application/json" →
      o.toLambdaProxyResponse.Base64 = true ∧
      o.toLambdaProxyResponse.Body = b64encode o.buf) := by
  unfold ResponseBuffer.toLambdaProxyResponse
  by_cases h : headerGet o.header (gostr "Content-Type") = gostr "application/json" <;>
    simp [h]

/-- A buffer that committed `application/json` and accumulated `{"a":1}`. -/
def rbJson : ResponseBuffer :=
  { statusCode := 200, wroteHeader := true,
    header := [(gostr "Content-Type", [gostr "application/json"])],
    buf := gostr "\x7b\x22a\x22:1\x7d" }

/-- A buffer that committed `text/plain` and accumulated `hello`. -/
def rbText : ResponseBuffer :=
  { statusCode := 200, wroteHeader := true,
    header := [(gostr "Content-Type", [gostr "text/plain"])],
    buf := gostr "hello" }

/-- Witness for C2 at two concrete buffers: the JSON buffer renders
literally with flag false, the text buffer renders base64 with flag true. -/
theorem toLambdaProxyResponse_encoding_witness :
    (rbJson.toLambdaProxyResponse.Base64 = false ∧
     rbJson.toLambdaProxyResponse.Body = rbJson.buf) ∧
    (rbText.toLambdaProxyResponse.Base64 = true ∧
     rbText.toLambdaProxyResponse.Body = b64encode rbText.buf) :=
  ⟨(toLambdaProxyResponse_encoding rbJson).1 (by decide),
   (toLambdaProxyResponse_encoding rbText).2 (by decide)⟩

/-- Claim C7: once headers are committed (`wroteHeader` set), a further
`WriteHeader` call is silently ignored — it leaves the buffer unchanged —
and after a first commit on a fresh buffer a second `WriteHeader` with a
different code retains the first code, in the buffer and in the rendered
envelope. -/
theorem writeHeader_first_commit_wins (o : ResponseBuffer) (c c₁ c₂ : Int)
    (h : o.wroteHeader = true) :
    o.writeHeader c = o ∧
    (o.writeHeader c₁).writeHeader c₂ = o.writeHeader c₁ ∧
    ((rbInit.writeHeader c₁).writeHeader c₂).statusCode = c₁ ∧
    ((rbInit.writeHeader c₁).writeHeader c₂).toLambdaProxyResponse.Status = c₁ := by
  refine ⟨by simp [ResponseBuffer.writeHeader, h], ?_, ?_, ?_⟩
  · simp [ResponseBuffer.writeHeader, h]
  · simp [rbInit, ResponseBuffer.writeHeader]
  · simp [rbInit, ResponseBuffer.writeHeader, ResponseBuffer.toLambdaProxyResponse]

/-- A buffer whose status was already committed. -/
def rbCommitted : ResponseBuffer := { statusCode := 204, wroteHeader := true }

/-- Witness for C7 at a concrete committed buffer and the distinct codes
201 and 404. -/
theorem writeHeader_first_commit_wins_witness :
    rbCommitted.writeHeader 404 = rbCommitted ∧
    (rbCommitted.writeHeader 201).writeHeader 404 = rbCommitted.writeHeader 201 ∧
    ((rbInit.writeHeader 201).writeHeader 404).statusCode = 201 ∧
    ((rbInit.writeHeader 201).writeHeader 404).toLambdaProxyResponse.Status = 201 :=
  writeHeader_first_commit_wins rbCommitted 404 201 404 (by decide)

/-- A handler that performs no response-writer action at all. -/
def muxSilent : Mux := fun _ => []

/-- Claim C1: for an envelope whose base64 flag is false, the materialized
request's body bytes are the literal body text; for a flag-true envelope
with valid base64 body, the materialized request's body is the decoded
bytes; and for a flag-true envelope with invalid base64 body no request is
materialized and `handleLambdaReq` returns the 400 "could not decode body"
envelope whatever the wrapped handler is (so the handler is never
invoked). -/
theorem handleLambdaReq_body_materialization (preq : ProxyRequest) (req : Request) (mux : Mux) :
    (preq.Base64 = false → materializeRequest preq = .ok req → req.Body = preq.Body) ∧
    (∀ bs, preq.Base64 = true → b64decode preq.Body = some bs →
      materializeRequest preq = .ok req → req.Body = bs) ∧
    (preq.Base64 = true → b64decode preq.Body = none →
      materializeRequest preq = .error .badBase64 ∧
      handleLambdaReq mux preq =
        (errorResponse 400 (gostr "could not decode body"), none,
         [gostr "could not decode body as base64"])) := by
  refine ⟨?_, ?_, ?_⟩
  · intro hB hm
    have h := (materializeRequest_inv hm).1
    simp only [decodeBody, hB, if_false, Bool.false_eq_true, Option.some.injEq] at h
    exact h.symm
  · intro bs hB hd hm
    have h := (materializeRequest_inv hm).1
    simp only [decodeBody, hB, if_true, hd, Option.some.injEq] at h
    exact h.symm
  · intro hB hd
    have hmat : materializeRequest preq = .error .badBase64 := by
      unfold materializeRequest
      simp [decodeBody, hB, hd]
    refine ⟨hmat, ?_⟩
    unfold handleLambdaReq
    simp only [hmat]

/-- The flag-false envelope `POST /` with literal body `hi`. -/
def preqLit : ProxyRequest := { Path := gostr "/", HttpMethod := gostr "POST", Body := gostr "hi" }

/-- The request `materializeRequest` yields for `preqLit`. -/
def reqLit : Request := { Method := gostr "POST", URL := gostr "/", Body := gostr "hi" }

/-- The flag-true envelope `POST /` with body `aGVsbG8=` (base64 of `hello`). -/
def preqB64 : ProxyRequest :=
  { Path := gostr "/", HttpMethod := gostr "POST", Body := gostr "aGVsbG8=", Base64 := true }

/-- The request `materializeRequest` yields for `preqB64`. -/
def reqB64 : Request := { Method := gostr "POST", URL := gostr "/", Body := gostr "hello" }

/-- The flag-true envelope whose body `!!!` is not valid base64. -/
def preqBadB64 : ProxyRequest :=
  { Path := gostr "/", HttpMethod := gostr "POST", Body := gostr "!!!", Base64 := true }

/-- Witness for C1 at three concrete envelopes: a literal body, a valid
base64 body, and an invalid base64 body. -/
theorem handleLambdaReq_body_materialization_witness :
    reqLit.Body = preqLit.Body ∧
    reqB64.Body = gostr "hello" ∧
    (materializeRequest preqBadB64 = .error .badBase64 ∧
     handleLambdaReq muxSilent preqBadB64 =
       (errorResponse 400 (gostr "could not decode body"), none,
        [gostr "could not decode body as base64"])) :=
  ⟨(handleLambdaReq_body_materialization preqLit reqLit muxSilent).1 (by decide) (by decide),
   (handleLambdaReq_body_materialization preqB64 reqB64 muxSilent).2.1
     (gostr "hello") (by decide) (by decide) (by decide),
   (handleLambdaReq_body_materialization preqBadB64 reqLit muxSilent).2.2 (by decide) (by decide)⟩

/-- Claim C3 (amended): when the wrapped handler returns with the one-shot
header-written flag still unset, `handleLambdaReq` returns an envelope
with status 500, base64 flag FALSE, and the non-empty literal diagnostic
body `internal server error`, and emits exactly one diagnostic log
message. -/
theorem handleLambdaReq_no_write_500 (mux : Mux) (preq : ProxyRequest) (req : Request)
    (hmat : materializeRequest preq = .ok req)
    (hnw : (runActions (mux req) rbInit).wroteHeader = false) :
    (handleLambdaReq mux preq).1.Status = 500 ∧
    (handleLambdaReq mux preq).1.Base64 = false ∧
    (handleLambdaReq mux preq).1.Body = gostr "internal server error" ∧
    (handleLambdaReq mux preq).1.Body ≠ [] ∧
    (handleLambdaReq mux preq).2.2 =
      [gostr "HTTP handler returned without writing a header or body"] := by
  have h : handleLambdaReq mux preq =
      (errorResponse 500 (gostr "internal server error"), none,
       [gostr "HTTP handler returned without writing a header or body"]) := by
    unfold handleLambdaReq
    simp [hmat, hnw]
  rw [h]
  exact ⟨rfl, rfl, rfl, by decide, rfl⟩

/-- The envelope `POST /` with empty literal body. -/
def preqPost : ProxyRequest := { Path := gostr "/", HttpMethod := gostr "POST" }

/-- The request `materializeRequest` yields for `preqPost`. -/
def reqPost : Request := { Method := gostr "POST", URL := gostr "/" }

/-- Witness for the amended C3: a handler that performs no action on the
concrete envelope `POST /` produces the 500 envelope with flag false and
one log message. -/
theorem handleLambdaReq_no_write_500_witness :
    (handleLambdaReq muxSilent preqPost).1.Status = 500 ∧
    (handleLambdaReq muxSilent preqPost).1.Base64 = false ∧
    (handleLambdaReq muxSilent preqPost).1.Body = gostr "internal server error" ∧
    (handleLambdaReq muxSilent preqPost).1.Body ≠ [] ∧
    (handleLambdaReq muxSilent preqPost).2.2 =
      [gostr "HTTP handler returned without writing a header or body"] :=
  handleLambdaReq_no_write_500 muxSilent preqPost reqPost rfl (by decide)

/-- Counterexample to C3 as stated: on the concrete envelope `POST /` with
a handler that performs no action, the premise of the claim holds (the
header-written flag is still unset when the handler returns) and the
degenerate 500 case fires, but the returned envelope's base64 flag is
false, not true as the claim asserts. -/
theorem handleLambdaReq_no_write_flag_counterexample :
    (runActions (muxSilent reqPost) rbInit).wroteHeader = false ∧
    materializeRequest preqPost = .ok reqPost ∧
    (handleLambdaReq muxSilent preqPost).1.Status = 500 ∧
    (handleLambdaReq muxSilent preqPost).1.Base64 = false := by decide

/-- Claim C4: `handleLambdaReq` always returns a nil Go error, and in each
of the three per-request recoverable error cases (malformed base64 body,
failed request construction, handler wrote nothing) it returns the
corresponding well-formed `errorResponse` envelope — status 400, 400 and
500 respectively, each with a short plain-text diagnostic body — plus
exactly one log emission. -/
theorem handleLambdaReq_recoverable_nonfatal (mux : Mux) (preq : ProxyRequest) :
    (handleLambdaReq mux preq).2.1 = none ∧
    (materializeRequest preq = .error .badBase64 →
      handleLambdaReq mux preq =
        (errorResponse 400 (gostr "could not decode body"), none,
         [gostr "could not decode body as base64"])) ∧
    (∀ e, materializeRequest preq = .error (.badRequest e) →
      handleLambdaReq mux preq =
        (errorResponse 400 (gostr "could not create request, check url and http method"),
         none, [gostr "could not create request : " ++ e])) ∧
    (∀ req, materializeRequest preq = .ok req →
      (runActions (mux req) rbInit).wroteHeader = false →
      handleLambdaReq mux preq =
        (errorResponse 500 (gostr "internal server error"), none,
         [gostr "HTTP handler returned without writing a header or body"])) := by
  refine ⟨?_, ?_, ?_, ?_⟩
  · unfold handleLambdaReq
    cases hm : materializeRequest preq with
    | error e => cases e <;> simp
    | ok req =>
      by_cases hw : (runActions (mux req) rbInit).wroteHeader = true <;> simp [hw]
  · intro h
    unfold handleLambdaReq
    simp only [h]
  · intro e h
    unfold handleLambdaReq
    simp only [h]
  · intro req h hw
    unfold handleLambdaReq
    simp [h, hw]

/-- The flag-true envelope whose body `****` is not valid base64. -/
def preqStars : ProxyRequest :=
  { Path := gostr "/", HttpMethod := gostr "POST", Body := gostr "****", Base64 := true }

/-- An envelope whose method ` ` is not a valid HTTP method token, so
request construction fails. -/
def preqBadMethod : ProxyRequest := { Path := gostr "/", HttpMethod := gostr " " }

/-- Witness for C4: at concrete envelopes exercising each of the three
recoverable cases, `handleLambdaReq` returns a nil error and the stated
envelope and log. -/
theorem handleLambdaReq_recoverable_nonfatal_witness :
    (handleLambdaReq muxSilent preqStars).2.1 = none ∧
    handleLambdaReq muxSilent preqStars =
      (errorResponse 400 (gostr "could not decode body"), none,
       [gostr "could not decode body as base64"]) ∧
    handleLambdaReq muxSilent preqBadMethod =
      (errorResponse 400 (gostr "could not create request, check url and http method"),
       none, [gostr "could not create request : " ++ gostr "net/http: invalid method"]) ∧
    handleLambdaReq muxSilent preqPost =
      (errorResponse 500 (gostr "internal server error"), none,
       [gostr "HTTP handler returned without writing a header or body"]) :=
  ⟨(handleLambdaReq_recoverable_nonfatal muxSilent preqStars).1,
   (handleLambdaReq_recoverable_nonfatal muxSilent preqStars).2.1 (by decide),
   (handleLambdaReq_recoverable_nonfatal muxSilent preqBadMethod).2.2.1
     (gostr "net/http: invalid method") (by decide),
   (handleLambdaReq_recoverable_nonfatal muxSilent preqPost).2.2.2
     reqPost rfl (by decide)⟩

/-- The raw response bytes of one invocation, read off the same case
analysis `handleLambdaReq` performs: the literal diagnostic message in the
three synthesized-error branches, and the capture buffer's accumulated
bytes when the handler's output is rendered. -/
def responseRawBytes (mux : Mux) (preq : ProxyRequest) : GoStr :=
  match materializeRequest preq with
  | .error .badBase64 => gostr "could not decode body"
  | .error (.badRequest _) => gostr "could not create request, check url and http method"
  | .ok req =>
    let buf := runActions (mux req) rbInit
    if ¬ buf.wroteHeader then gostr "internal server error" else buf.buf

/-- Claim C8: every envelope `handleLambdaReq` returns satisfies the
agreement invariant with respect to the invocation's actual raw response
bytes (the capture buffer's contents, or the error helper's diagnostic
message): if the base64 flag is false the body is exactly those literal
bytes, and if the flag is true the body is exactly their base64
encoding. -/
theorem handleLambdaReq_flag_body_agreement (mux : Mux) (preq : ProxyRequest) :
    ((handleLambdaReq mux preq).1.Base64 = false →
      (handleLambdaReq mux preq).1.Body = responseRawBytes mux preq) ∧
    ((handleLambdaReq mux preq).1.Base64 = true →
      (handleLambdaReq mux preq).1.Body = b64encode (responseRawBytes mux preq)) := by
  cases hm : materializeRequest preq with
  | error e =>
    cases e with
    | badBase64 =>
      have h1 : handleLambdaReq mux preq =
          (errorResponse 400 (gostr "could not decode body"), none,
           [gostr "could not decode body as base64"]) := by
        unfold handleLambdaReq
        simp only [hm]
      have h2 : responseRawBytes mux preq = gostr "could not decode body" := by
        unfold responseRawBytes
        simp only [hm]
      rw [h1, h2]
      exact ⟨fun _ => rfl, fun h => Bool.noConfusion h⟩
    | badRequest e =>
      have h1 : handleLambdaReq mux preq =
          (errorResponse 400 (gostr "could not create request, check url and http method"),
           none, [gostr "could not create request : " ++ e]) := by
        unfold handleLambdaReq
        simp only [hm]
      have h2 : responseRawBytes mux preq =
          gostr "could not create request, check url and http method" := by
        unfold responseRawBytes
        simp only [hm]
      rw [h1, h2]
      exact ⟨fun _ => rfl, fun h => Bool.noConfusion h⟩
  | ok req =>
    by_cases hw : (runActions (mux req) rbInit).wroteHeader = true
    · have h1 : handleLambdaReq mux preq =
          ((runActions (mux req) rbInit).toLambdaProxyResponse, none, []) := by
        unfold handleLambdaReq
        simp [hm, hw]
      have h2 : responseRawBytes mux preq = (runActions (mux req) rbInit).buf := by
        unfold responseRawBytes
        simp [hm, hw]
      rw [h1, h2]
      by_cases hj : headerGet (runActions (mux req) rbInit).header (gostr "Content-Type")
          = gostr "application/json"
      · exact ⟨fun _ => by simp [ResponseBuffer.toLambdaProxyResponse, hj],
               fun h => absurd h (by simp [ResponseBuffer.toLambdaProxyResponse, hj])⟩
      · exact ⟨fun h => absurd h (by simp [ResponseBuffer.toLambdaProxyResponse, hj]),
               fun _ => by simp [ResponseBuffer.toLambdaProxyResponse, hj]⟩
    · have hw' : (runActions (mux req) rbInit).wroteHeader = false := by
        simpa using hw
      have h1 : handleLambdaReq mux preq =
          (errorResponse 500 (gostr "internal server error"), none,
           [gostr "HTTP handler returned without writing a header or body"]) := by
        unfold handleLambdaReq
        simp [hm, hw']
      have h2 : responseRawBytes mux preq = gostr "internal server error" := by
        unfold responseRawBytes
        simp [hm, hw']
      rw [h1, h2]
      exact ⟨fun _ => rfl, fun h => Bool.noConfusion h⟩

/-- A handler that sets `Content-Type: text/plain` and writes `hello`. -/
def muxText : Mux :=
  fun _ => [.headerSet (gostr "Content-Type") (gostr "text/plain"), .write (gostr "hello")]

/-- Witness for C8 at two concrete invocations covering both flag values:
a silent handler yields a flag-false envelope whose body is the invocation's
raw diagnostic bytes, and a `text/plain` handler yields a flag-true
envelope whose body is the base64 encoding of the invocation's raw buffer
bytes. -/
theorem handleLambdaReq_flag_body_agreement_witness :
    ((handleLambdaReq muxSilent preqPost).1.Base64 = false ∧
     (handleLambdaReq muxSilent preqPost).1.Body = responseRawBytes muxSilent preqPost) ∧
    ((handleLambdaReq muxText preqPost).1.Base64 = true ∧
     (handleLambdaReq muxText preqPost).1.Body =
       b64encode (responseRawBytes muxText preqPost)) :=
  ⟨⟨by decide, (handleLambdaReq_flag_body_agreement muxSilent preqPost).1 (by decide)⟩,
   ⟨by decide, (handleLambdaReq_flag_body_agreement muxText preqPost).2 (by decide)⟩⟩

/-- An action that only mutates the header map (neither commits a status
nor writes body bytes). -/
def isHeaderAction : RBAction → Bool
  | .headerAdd _ _ => true
  | .headerSet _ _ => true
  | .writeHeader _ => false
  | .write _ => false

/-- Header-only actions change neither the committed status nor the
one-shot header-written flag. -/
theorem runActions_header_only (pre : List RBAction) (o : ResponseBuffer)
    (hpre : ∀ a ∈ pre, isHeaderAction a = true) :
    (runActions pre o).statusCode = o.statusCode ∧
    (runActions pre o).wroteHeader = o.wroteHeader := by
  induction pre generalizing o with
  | nil => exact ⟨rfl, rfl⟩
  | cons a rest ih =>
    have ha := hpre a (List.mem_cons_self a rest)
    have hrest : ∀ b ∈ rest, isHeaderAction b = true :=
      fun b hb => hpre b (List.mem_cons_of_mem a hb)
    cases a with
    | headerAdd k v =>
      simpa [runActions, applyAction] using
        ih { o with header := headerAdd o.header k v } hrest
    | headerSet k v =>
      simpa [runActions, applyAction] using
        ih { o with header := headerSet o.header k v } hrest
    | writeHeader c => simp [isHeaderAction] at ha
    | write bs => simp [isHeaderAction] at ha

/-- Once status 200 is committed, no later action changes the committed
status or clears the flag. -/
theorem runActions_keeps_200 (post : List RBAction) (o : ResponseBuffer)
    (hs : o.statusCode = 200) (hw : o.wroteHeader = true) :
    (runActions post o).statusCode = 200 ∧ (runActions post o).wroteHeader = true := by
  induction post generalizing o with
  | nil => exact ⟨hs, hw⟩
  | cons a rest ih =>
    have step : (applyAction o a).statusCode = 200 ∧ (applyAction o a).wroteHeader = true := by
      cases a with
      | headerAdd k v => exact ⟨hs, hw⟩
      | headerSet k v => exact ⟨hs, hw⟩
      | writeHeader c => simp [applyAction, ResponseBuffer.writeHeader, hw, hs]
      | write bs => simp [applyAction, ResponseBuffer.write, ResponseBuffer.writeHeader, hw, hs]
    simpa [runActions] using ih (applyAction o a) step.1 step.2

/-- Claim C6: when `Write` is the first status-committing action a handler
performs on the fresh buffer (everything before it only mutates the header
map), the buffer's committed status becomes 200, the header-written flag is
set, and — whatever the handler does afterwards — the rendered envelope has
status 200. -/
theorem write_first_commits_200 (pre post : List RBAction) (bs : GoStr)
    (hpre : ∀ a ∈ pre, isHeaderAction a = true) :
    (runActions (pre ++ [RBAction.write bs]) rbInit).statusCode = 200 ∧
    (runActions (pre ++ [RBAction.write bs]) rbInit).wroteHeader = true ∧
    (runActions (pre ++ RBAction.write bs :: post) rbInit).statusCode = 200 ∧
    (runActions (pre ++ RBAction.write bs :: post) rbInit).toLambdaProxyResponse.Status
      = 200 := by
  obtain ⟨hs0, hw0⟩ := runActions_header_only pre rbInit hpre
  have hs0' : (runActions pre rbInit).statusCode = 0 := by rw [hs0]; rfl
  have hw0' : (runActions pre rbInit).wroteHeader = false := by rw [hw0]; rfl
  have hmid : (applyAction (runActions pre rbInit) (RBAction.write bs)).statusCode = 200 ∧
      (applyAction (runActions pre rbInit) (RBAction.write bs)).wroteHeader = true := by
    simp [applyAction, ResponseBuffer.write, ResponseBuffer.writeHeader, hs0', hw0']
  have hsplit : runActions (pre ++ RBAction.write bs :: post) rbInit =
      runActions post (applyAction (runActions pre rbInit) (RBAction.write bs)) := by
    simp [runActions, List.foldl_append]
  have hone : runActions (pre ++ [RBAction.write bs]) rbInit =
      applyAction (runActions pre rbInit) (RBAction.write bs) := by
    simp [runActions, List.foldl_append]
  obtain ⟨hfin, hwfin⟩ := runActions_keeps_200 post _ hmid.1 hmid.2
  refine ⟨by rw [hone]; exact hmid.1, by rw [hone]; exact hmid.2, by rw [hsplit]; exact hfin, ?_⟩
  rw [hsplit]
  simpa [ResponseBuffer.toLambdaProxyResponse] using hfin

/-- Witness for C6: a handler that sets `Content-Type: text/plain`, writes
`hi`, then tries `WriteHeader(404)` — the buffer and rendered envelope still
carry status 200. -/
theorem write_first_commits_200_witness :
    (runActions ([RBAction.headerSet (gostr "Content-Type") (gostr "text/plain")]
        ++ [RBAction.write (gostr "hi")]) rbInit).statusCode = 200 ∧
    (runActions ([RBAction.headerSet (gostr "Content-Type") (gostr "text/plain")]
        ++ [RBAction.write (gostr "hi")]) rbInit).wroteHeader = true ∧
    (runActions ([RBAction.headerSet (gostr "Content-Type") (gostr "text/plain")]
        ++ RBAction.write (gostr "hi") :: [RBAction.writeHeader 404]) rbInit).statusCode
      = 200 ∧
    (runActions ([RBAction.headerSet (gostr "Content-Type") (gostr "text/plain")]
        ++ RBAction.write (gostr "hi") :: [RBAction.writeHeader 404])
        rbInit).toLambdaProxyResponse.Status = 200 :=
  write_first_commits_200 [RBAction.headerSet (gostr "Content-Type") (gostr "text/plain")]
    [RBAction.writeHeader 404] (gostr "hi") (by decide)

/-- Claim C9 (amended): an unrecognized non-empty mode selector (after
trimming and lowercasing, anything other than `lambda`, `http` or the
empty string) makes `ConfigFromEnv` return an error, and a missing
listen-address makes it return an error whenever the mode resolves to HTTP
mode — which includes a missing or empty selector, since that defaults to
HTTP mode rather than erroring. -/
theorem configFromEnv_startup_errors (modeEnv : GoStr) (addrEnv : Option GoStr) :
    (toLower (trimSpace modeEnv) ≠ [] →
     toLower (trimSpace modeEnv) ≠ gostr "http" →
     toLower (trimSpace modeEnv) ≠ gostr "lambda" →
      configFromEnv modeEnv addrEnv =
        .error (gostr "incorrect CONNECT_SERVER_MODE environment value")) ∧
    ((toLower (trimSpace modeEnv) = [] ∨ toLower (trimSpace modeEnv) = gostr "http") →
      configFromEnv modeEnv none =
        .error (gostr "missing CONNECT_SERVER_ADDR environment value")) := by
  constructor
  · intro h1 h2 h3
    unfold configFromEnv
    simp [h1, h2, h3]
  · intro h
    unfold configFromEnv
    rcases h with h | h <;> simp [h] <;> decide

/-- Witness for C9 (amended): the unrecognized selector `" GRPC "` errors
even with an address present, and selector `http` with no address errors. -/
theorem configFromEnv_startup_errors_witness :
    configFromEnv (gostr " GRPC ") (some (gostr ":8080")) =
      .error (gostr "incorrect CONNECT_SERVER_MODE environment value") ∧
    configFromEnv (gostr "http") none =
      .error (gostr "missing CONNECT_SERVER_ADDR environment value") :=
  ⟨(configFromEnv_startup_errors (gostr " GRPC ") (some (gostr ":8080"))).1
      (by decide) (by decide) (by decide),
   (configFromEnv_startup_errors (gostr "http") none).2 (Or.inr (by decide))⟩

/-- Counterexample to C9 as stated: with the mode selector missing
(`os.Getenv` yields the empty string) and an address present,
`ConfigFromEnv` returns a usable HTTP-mode `Config`, not an error — a
missing mode selector does not yield a startup failure. -/
theorem configFromEnv_missing_mode_counterexample :
    configFromEnv (gostr "") (some (gostr ":8080")) =
      .ok { Mode := Mode.HttpMode, HttpAddr := gostr ":8080" } := by decide

/-- The value list stored under the exact (already canonical) key `k`. -/
def rawValues (h : GoHeader) (k : GoStr) : List GoStr := (lookupAssoc h k).getD []

theorem headerValues_eq_raw (h : GoHeader) (key : GoStr) :
    headerValues h key = rawValues h (canonicalMIMEHeaderKey key) := rfl

/-- Appending a value under key `k` appends it to the value list of `k` and
leaves every other key's values unchanged. -/
theorem rawValues_addAssoc (h : GoHeader) (k k' v : GoStr) :
    rawValues (addAssoc h k v) k' =
      rawValues h k' ++ if k' = k then [v] else [] := by
  induction h with
  | nil =>
    simp only [addAssoc, rawValues, lookupAssoc]
    by_cases hk : k = k'
    · subst hk; simp
    · rw [if_neg hk, if_neg (fun hh => hk hh.symm)]; simp
  | cons hd tl ih =>
    obtain ⟨k₀, vs₀⟩ := hd
    simp only [addAssoc]
    by_cases h0 : k₀ = k
    · rw [if_pos h0]
      simp only [rawValues, lookupAssoc]
      by_cases h1 : k₀ = k'
      · rw [if_pos h1, if_pos h1, if_pos (h1.symm.trans h0)]
        simp
      · rw [if_neg h1, if_neg h1]
        by_cases hk : k' = k
        · exact absurd (h0.trans hk.symm) h1
        · rw [if_neg hk]
          simp
    · rw [if_neg h0]
      simp only [rawValues, lookupAssoc]
      by_cases h1 : k₀ = k'
      · rw [if_pos h1, if_pos h1, if_neg (fun hh => h0 (h1.trans hh))]
        simp
      · rw [if_neg h1, if_neg h1]
        exact ih

/-- The single-value header loop: after folding `headerAdd` over the pair
list `L`, the values under a canonical key `K` are the prior values
followed by the values of every entry of `L` whose key canonicalises to
`K`, in list order. -/
theorem rawValues_fold_singles (L : List (GoStr × GoStr)) (h : GoHeader) (K : GoStr) :
    rawValues (L.foldl (fun h kv => headerAdd h kv.1 kv.2) h) K =
      rawValues h K ++
        (L.filter (fun kv => canonicalMIMEHeaderKey kv.1 = K)).map Prod.snd := by
  induction L generalizing h with
  | nil => simp
  | cons kv rest ih =>
    rw [List.foldl_cons, ih]
    by_cases hc : canonicalMIMEHeaderKey kv.1 = K
    · simp [headerAdd, rawValues_addAssoc, hc, List.filter_cons, List.append_assoc]
    · have hc' : ¬ K = canonicalMIMEHeaderKey kv.1 := fun hh => hc hh.symm
      simp [headerAdd, rawValues_addAssoc, hc, hc', List.filter_cons]

/-- One multi-value entry's inner loop: folding `headerAdd` with a fixed
key `k` over the value list `vs` appends `vs` to the values of
`canonicalMIMEHeaderKey k` and changes nothing else. -/
theorem rawValues_fold_one_multi (vs : List GoStr) (h : GoHeader) (k K : GoStr) :
    rawValues (vs.foldl (fun h v => headerAdd h k v) h) K =
      rawValues h K ++ if canonicalMIMEHeaderKey k = K then vs else [] := by
  induction vs generalizing h with
  | nil => simp
  | cons v rest ih =>
    rw [List.foldl_cons, ih]
    by_cases hc : canonicalMIMEHeaderKey k = K
    · simp [headerAdd, rawValues_addAssoc, hc, List.append_assoc]
    · have hc' : ¬ K = canonicalMIMEHeaderKey k := fun hh => hc hh.symm
      simp [headerAdd, rawValues_addAssoc, hc, hc']

/-- The multi-value header loop: after folding the nested `headerAdd`
loops over the list `M`, the values under a canonical key `K` are the
prior values followed by the concatenated value lists of every entry of
`M` whose key canonicalises to `K`, in list order. -/
theorem rawValues_fold_multi (M : List (GoStr × List GoStr)) (h : GoHeader) (K : GoStr) :
    rawValues (M.foldl (fun h ks => ks.2.foldl (fun h v => headerAdd h ks.1 v) h) h) K =
      rawValues h K ++
        ((M.filter (fun ks => canonicalMIMEHeaderKey ks.1 = K)).map Prod.snd).flatten := by
  induction M generalizing h with
  | nil => simp
  | cons ks rest ih =>
    rw [List.foldl_cons, ih, rawValues_fold_one_multi]
    by_cases hc : canonicalMIMEHeaderKey ks.1 = K
    · simp [hc, List.filter_cons, List.append_assoc]
    · simp [hc, List.filter_cons]

/-- Claim C5: the materialized request's header set carries, for every
header key, the values of the envelope's single-value map entries whose
key canonicalises like it, followed by all values of the matching
multi-value map entries in list order — nothing dropped, nothing
deduplicated. -/
theorem materialized_header_merge (preq : ProxyRequest) (req : Request) (key : GoStr)
    (hmat : materializeRequest preq = .ok req) :
    headerValues req.Header key =
      ((preq.Headers.filter
          (fun kv => canonicalMIMEHeaderKey kv.1 = canonicalMIMEHeaderKey key)).map Prod.snd)
      ++ (((preq.MultiValueHeaders.filter
          (fun ks => canonicalMIMEHeaderKey ks.1 = canonicalMIMEHeaderKey key)).map
            Prod.snd).flatten) := by
  have hH := (materializeRequest_inv hmat).2
  rw [headerValues_eq_raw, hH, copyHeaders, rawValues_fold_multi, rawValues_fold_singles]
  simp [rawValues, lookupAssoc]

/-- The envelope with single-value header `X: 1` and multi-value header
`X: [2, 3]`. -/
def preqX : ProxyRequest :=
  { Path := gostr "/", HttpMethod := gostr "POST",
    Headers := [(gostr "X", gostr "1")],
    MultiValueHeaders := [(gostr "X", [gostr "2", gostr "3"])] }

/-- The request `materializeRequest` yields for `preqX`. -/
def reqX : Request :=
  { Method := gostr "POST", URL := gostr "/",
    Header := [(gostr "X", [gostr "1", gostr "2", gostr "3"])] }

/-- Witness for C5: on the concrete envelope with `X: 1` and `X: [2, 3]`,
the materialized request carries all three values for `X` in the order
1, 2, 3. -/
theorem materialized_header_merge_witness :
    headerValues reqX.Header (gostr "X") = [gostr "1", gostr "2", gostr "3"] :=
  (materialized_header_merge preqX reqX (gostr "X") (by decide)).trans (by decide)
